import Mathlib

/-!
Verification of the rendering core of the Raytracer repository.

The C++ templates are instantiated at their main typedefs
(vec_T = color_T = time_T = double, dim = 3) and doubles are idealized as
real numbers, which is the arithmetic the specification describes.
Each definition below is a direct transcription of the correspondingly
named C++ member function; out-parameters become extra inputs (the value
the caller's variable held before the call) plus tupled outputs, and code
that can fail an assertion is modelled with Option where a claim concerns
that assertion.
-/

namespace Raytracer

noncomputable section

/-- Embeds mvector<double, 3> (mvector.hh): an ordered triple of real
components. -/
@[ext]
structure mvector where
  x : ℝ
  y : ℝ
  z : ℝ

namespace mvector

/-- Embeds operator+ (componentwise sum). -/
def add (a b : mvector) : mvector := ⟨a.x + b.x, a.y + b.y, a.z + b.z⟩

instance : Add mvector := ⟨add⟩

/-- Embeds operator- (componentwise difference). -/
def sub (a b : mvector) : mvector := ⟨a.x - b.x, a.y - b.y, a.z - b.z⟩

instance : Sub mvector := ⟨sub⟩

/-- Embeds unary operator- (componentwise multiplication by -1). -/
def neg (a : mvector) : mvector := ⟨a.x * -1, a.y * -1, a.z * -1⟩

instance : Neg mvector := ⟨neg⟩

/-- Embeds operator*(mvector, scalar): componentwise scaling. -/
def smulRight (a : mvector) (s : ℝ) : mvector := ⟨a.x * s, a.y * s, a.z * s⟩

instance : HMul mvector ℝ mvector := ⟨smulRight⟩

/-- Embeds operator*(scalar, mvector): componentwise scaling. -/
def smulLeft (s : ℝ) (a : mvector) : mvector := ⟨a.x * s, a.y * s, a.z * s⟩

instance : HMul ℝ mvector mvector := ⟨smulLeft⟩

/-- Embeds operator*(mvector, mvector), the dot product: the source
accumulates rhs[i] * v[i] over the three indices. -/
def dot (a b : mvector) : ℝ := b.x * a.x + b.y * a.y + b.z * a.z

instance : HMul mvector mvector ℝ := ⟨dot⟩

/-- Embeds operator%(mvector, mvector), the 3-dimensional cross product,
with the exact component formulas of the source. -/
def cross (a b : mvector) : mvector :=
  ⟨a.y * b.z - a.z * b.y, -(a.x * b.z) + a.z * b.x, a.x * b.y - a.y * b.x⟩

instance : HMod mvector mvector mvector := ⟨cross⟩

/-- Embeds magsq(): dot product of the vector with itself. -/
def magsq (a : mvector) : ℝ := dot a a

/-- Embeds mag(): square root of the squared magnitude. -/
def mag (a : mvector) : ℝ := Real.sqrt a.magsq

/-- Embeds norm(): every component divided by the magnitude (division by
zero for the zero vector is the source's documented degenerate case; in
this real-number model it yields the zero vector). -/
def norm (a : mvector) : mvector := ⟨a.x / a.mag, a.y / a.mag, a.z / a.mag⟩

/-- Modelled from the spec: mvector::proj is used by cylinder.hh and
ray.hh but its defining source file is not part of this snapshot; the
specification defines proj(v, onto) as (v . ontohat) ontohat where
ontohat is onto normalized. -/
def proj (v onto : mvector) : mvector := smulLeft (dot v onto.norm) onto.norm

/-- The zero vector (the mvector default constructor). -/
def zero : mvector := ⟨0, 0, 0⟩

end mvector

/-- Embeds rgbcolor<double> (rgbcolor.hh): a red/green/blue triple. -/
@[ext]
structure rgbcolor where
  r : ℝ
  g : ℝ
  b : ℝ

namespace rgbcolor

/-- Embeds rgbcolor's default constructor: black. -/
def black : rgbcolor := ⟨0, 0, 0⟩

/-- Embeds operator+ (componentwise sum). -/
def add (a c : rgbcolor) : rgbcolor := ⟨a.r + c.r, a.g + c.g, a.b + c.b⟩

instance : Add rgbcolor := ⟨add⟩

/-- Embeds operator*(rgbcolor, rgbcolor): componentwise product. -/
def mulc (a c : rgbcolor) : rgbcolor := ⟨a.r * c.r, a.g * c.g, a.b * c.b⟩

instance : Mul rgbcolor := ⟨mulc⟩

/-- Embeds operator*(rgbcolor, scalar). -/
def smulRight (a : rgbcolor) (s : ℝ) : rgbcolor := ⟨a.r * s, a.g * s, a.b * s⟩

instance : HMul rgbcolor ℝ rgbcolor := ⟨smulRight⟩

/-- Embeds operator*(scalar, rgbcolor). -/
def smulLeft (s : ℝ) (a : rgbcolor) : rgbcolor := ⟨a.r * s, a.g * s, a.b * s⟩

instance : HMul ℝ rgbcolor rgbcolor := ⟨smulLeft⟩

/-- Embeds operator/(rgbcolor, scalar); the source asserts the scalar is
nonzero, and every call site modelled here divides by a positive count,
so plain real division (0 when the divisor is 0) is used. -/
def div (a : rgbcolor) (s : ℝ) : rgbcolor := ⟨a.r / s, a.g / s, a.b / s⟩

/-- Embeds clamp(minv, maxv): each channel is raised to minv if below it
and then lowered to maxv if above it, in the source's order. -/
def clamp (c : rgbcolor) (minv maxv : ℝ) : rgbcolor :=
  let r1 := if c.r < minv then minv else c.r
  let g1 := if c.g < minv then minv else c.g
  let b1 := if c.b < minv then minv else c.b
  let r2 := if r1 > maxv then maxv else r1
  let g2 := if g1 > maxv then maxv else g1
  let b2 := if b1 > maxv then maxv else b1
  ⟨r2, g2, b2⟩

end rgbcolor

/-- Embeds the RAY_MISS sentinel (-1) from sceneobj.hh. -/
def RAY_MISS : ℝ := -1

/-- Embeds ray<double, double, 3> (ray.hh): an origin point P and a
direction vector D. -/
structure ray where
  P : mvector
  D : mvector

namespace ray

/-- Embeds the ray(start, direction, normalizeDir) constructor: the
direction is normalized when normalizeDir is true. -/
def make (start direction : mvector) (normalizeDir : Bool) : ray :=
  ⟨start, if normalizeDir then direction.norm else direction⟩

/-- The position P + t D of the ray at time t (the body of getPointAtT,
without the assertion). -/
def pointAtT (r : ray) (t : ℝ) : mvector := r.P + mvector.smulLeft t r.D

/-- Embeds getPointAtT(t): the source asserts t >= 0 before computing
P + t * D, so the assertion failure is modelled as none. -/
def getPointAtT (r : ray) (t : ℝ) : Option mvector :=
  if 0 ≤ t then some (r.pointAtT t) else none

/-- Embeds reflect(X, N, epsilon): the reflected direction is
D + 2 proj(-D, N) and the reflected ray starts at X + D_r * epsilon with
a normalized direction (the ray constructor's default). -/
def reflect (r : ray) (X N : mvector) (epsilon : ℝ) : ray :=
  let dr := r.D + mvector.smulLeft 2 ((-r.D).proj N)
  ray.make (X + mvector.smulRight dr epsilon) dr true

end ray

/-- Embeds sphere<double, double, double, 3> (sphere.hh), flattened with
its shape base class fields (color, reflectivity). -/
structure sphere where
  color : rgbcolor
  reflectivity : ℝ
  rad : ℝ
  center : mvector

namespace sphere

/-- The local a of getIntersections: a = d . d. -/
def quadA (s : sphere) (r : ray) : ℝ := r.D.dot r.D

/-- The local b of getIntersections: b = 2 (p . d - d . c). -/
def quadB (s : sphere) (r : ray) : ℝ := 2 * (r.P.dot r.D - r.D.dot s.center)

/-- The local c of getIntersections:
c = p . p + c . c - 2 (p . c) - r^2. -/
def quadC (s : sphere) (r : ray) : ℝ :=
  r.P.dot r.P + s.center.dot s.center - 2 * (r.P.dot s.center) - s.rad * s.rad

/-- The discriminant b^2 - 4 a c (the local tmpsqrt of getIntersections
before the square root is taken). -/
def discrim (s : sphere) (r : ray) : ℝ :=
  s.quadB r * s.quadB r - 4 * s.quadA r * s.quadC r

/-- The root (-b + sqrt(disc)) / (2a), the value first assigned to t1 in
the two-root branch of getIntersections. -/
def root1 (s : sphere) (r : ray) : ℝ :=
  (-s.quadB r + Real.sqrt (s.discrim r)) / (2 * s.quadA r)

/-- The root (-b - sqrt(disc)) / (2a), the value first assigned to t2 in
the two-root branch of getIntersections. -/
def root2 (s : sphere) (r : ray) : ℝ :=
  (-s.quadB r - Real.sqrt (s.discrim r)) / (2 * s.quadA r)

/-- The smaller of root1 and root2 after the ascending-order swap of
getIntersections. -/
def rootLo (s : sphere) (r : ray) : ℝ :=
  if s.root1 r > s.root2 r then s.root2 r else s.root1 r

/-- The larger of root1 and root2 after the ascending-order swap of
getIntersections. -/
def rootHi (s : sphere) (r : ray) : ℝ :=
  if s.root1 r > s.root2 r then s.root1 r else s.root2 r

/-- Embeds getIntersections(r, t1, t2). The C++ out-parameters t1, t2
become the inputs t1 and t2 (the values the caller's variables held
before the call) and the returned triple (count, t1, t2) holds the
values after the call, so a path that never assigns an out-parameter
returns the corresponding input unchanged. The locals a, b, c, tmpsqrt
and the swap of the two-root branch are the named definitions above. -/
def getIntersections (s : sphere) (r : ray) (t1 t2 : ℝ) : ℕ × ℝ × ℝ :=
  if s.discrim r < 0 then
    (0, RAY_MISS, RAY_MISS)
  else if s.discrim r = 0 then
    let t1' := -s.quadB r / (2 * s.quadA r)
    if t1' < 0 then (0, RAY_MISS, t2)
    else (1, t1', t2)
  else
    if s.rootLo r < 0 ∧ s.rootHi r < 0 then (0, RAY_MISS, RAY_MISS)
    else if s.rootLo r < 0 then (1, RAY_MISS, s.rootHi r)
    else (2, s.rootLo r, s.rootHi r)

/-- Embeds sphere::intersection(r): calls getIntersections on two
uninitialized locals and returns the resulting t1. Every path of
getIntersections assigns t1, so the result does not depend on the
uninitialized values (see intersection_junk_irrelevant); they are fixed
at 0 here. -/
def intersection (s : sphere) (r : ray) : ℝ :=
  (s.getIntersections r 0 0).2.1

end sphere

/-- Embeds cylinder<double, double, double> (cylinder.hh), flattened with
its shape base class fields. The axis field is the already-normalized
unit vector stored by the constructor. -/
structure cylinder where
  color : rgbcolor
  reflectivity : ℝ
  center : mvector
  radius : ℝ
  axis : mvector
  height : ℝ

namespace cylinder

/-- The sphere local fakesphere of cylinder::intersection: the cylinder's
color, reflectivity and radius, centered at the perpendicular component
cperp = center - proj(center, axis). -/
def fakesphere (cyl : cylinder) : sphere :=
  ⟨cyl.color, cyl.reflectivity, cyl.radius,
    cyl.center - cyl.center.proj cyl.axis⟩

/-- The local ray of cylinder::intersection: origin pperp and direction
dperp (the perpendicular components of the incoming ray's origin and
direction), built with normalization turned off. -/
def projRay (cyl : cylinder) (r : ray) : ray :=
  ray.make (r.P - r.P.proj cyl.axis) (r.D - r.D.proj cyl.axis) false

/-- The displacement ppar + dpar * t - cpar along the cylinder axis at a
candidate time t (the locals val1/val2 of cylinder::intersection). -/
def parDisp (cyl : cylinder) (r : ray) (t : ℝ) : mvector :=
  r.P.proj cyl.axis + mvector.smulRight (r.D.proj cyl.axis) t -
    cyl.center.proj cyl.axis

/-- Embeds cylinder::intersection(r). The two locals passed to
getIntersections are uninitialized in the source; their prior values are
the inputs t10 and t20 (they reach val1/val2 when getIntersections does
not assign them, see claim C10). The locals fakesphere, the projected
ray and the val1/val2 displacements are the named definitions above. -/
def intersection (cyl : cylinder) (r : ray) (t10 t20 : ℝ) : ℝ :=
  let res := cyl.fakesphere.getIntersections (cyl.projRay r) t10 t20
  let t1 := res.2.1
  let t2 := res.2.2
  let val1 := cyl.parDisp r t1
  let val2 := cyl.parDisp r t2
  let vals := if val1.magsq > val2.magsq then (val2, val1) else (val1, val2)
  if vals.1.magsq ≥ cyl.height * cyl.height / 4 ∧
      vals.2.magsq ≥ cyl.height * cyl.height / 4 then
    RAY_MISS
  else
    t1

end cylinder

/-- A shape as the scene sees it through its virtual interface
(shape.hh): an intersection routine, a surface-normal routine, a color
and a reflectivity. Sphere, plane and cylinder values are injected
through their member functions. -/
structure shape where
  intersection : ray → ℝ
  surfaceNorm : mvector → mvector
  color : rgbcolor
  reflectivity : ℝ

/-- Embeds light<double, double, double, 3> (light.hh): a position and a
color. -/
structure light where
  pos : mvector
  color : rgbcolor

/-- Embeds spotlight (spotlight.hh): a point light with a direction
vector and a cone angle. -/
structure spotlight where
  pos : mvector
  color : rgbcolor
  dir : mvector
  angle : ℝ

/-- Embeds the scene<double, double, double, 3> container (scene.hh):
point lights, spotlights, shapes in insertion order, and the shadow
flag. -/
structure scene where
  pointlights : List light
  spotlights : List spotlight
  shapes : List shape
  useShadows : Bool

/-- Embeds DEFAULT_BKCOLOR: the rgbcolor default constructor, black. -/
def DEFAULT_BKCOLOR : rgbcolor := rgbcolor.black

/-- Embeds COLORMAX (255). -/
def COLORMAX : ℝ := 255

/-- Embeds MAX_REFLECT (10), the reflection recursion cap. -/
def MAX_REFLECT : ℕ := 10

/-- Embeds DELTA (0.00001), the self-intersection bias for shadow
rays. -/
def DELTA : ℝ := 0.00001

/-- One iteration of the findClosestShape loop (scene.hh): a shape whose
intersection time is not RAY_MISS and is strictly positive replaces the
tracked best when nothing is tracked yet (time still RAY_MISS) or when
its time is strictly smaller. -/
def fcsStep (r : ray) (acc : Option shape × ℝ) (s : shape) : Option shape × ℝ :=
  let t := s.intersection r
  if t ≠ RAY_MISS ∧ t > 0 then
    if acc.2 = RAY_MISS then (some s, t)
    else if t < acc.2 then (some s, t)
    else acc
  else acc

/-- Embeds findClosestShape(r, tIntersect): a left fold of fcsStep over
the shapes starting from (no shape, RAY_MISS); the first component is
the returned pointer, the second the out-parameter tIntersect. -/
def findClosestShape (shapes : List shape) (r : ray) : Option shape × ℝ :=
  shapes.foldl (fcsStep r) (none, RAY_MISS)

/-- One iteration of the point-light loop of traceRay (scene.hh):
compute the normalized direction L to the light and L.N, offset the
intersection point by DELTA along the normal, skip the light when
shadows are on and the shadow ray hits any shape, and otherwise add
lightColor * objectColor * (L.N) when L.N > 0. -/
def pointLightBody (sc : scene) (obj : shape) (intersectionPt N : mvector)
    (acc : rgbcolor) (lt : light) : rgbcolor :=
  let L := (lt.pos - intersectionPt).norm
  let LdotN : ℝ := L.dot N
  let intersectionPtWithDelta := intersectionPt + mvector.smulRight N DELTA
  let rayToLight := ray.make intersectionPtWithDelta L true
  if sc.useShadows ∧ (findClosestShape sc.shapes rayToLight).1.isSome then acc
  else if LdotN > 0 then
    acc + rgbcolor.smulRight (lt.color.mulc obj.color) LdotN
  else acc

/-- One iteration of the spotlight loop of traceRay (scene.hh): like the
point-light loop, but the light is skipped first when the angle between
the spotlight direction and -L exceeds the cone angle. -/
def spotLightBody (sc : scene) (obj : shape) (intersectionPt N : mvector)
    (acc : rgbcolor) (lt : spotlight) : rgbcolor :=
  let L := (lt.pos - intersectionPt).norm
  if Real.arccos (lt.dir.norm.dot (-L)) > lt.angle then acc
  else
    let LdotN : ℝ := L.dot N
    let intersectionPtWithDelta := intersectionPt + mvector.smulRight N DELTA
    let rayToLight := ray.make intersectionPtWithDelta L true
    if sc.useShadows ∧ (findClosestShape sc.shapes rayToLight).1.isSome then acc
    else if LdotN > 0 then
      acc + rgbcolor.smulRight (lt.color.mulc obj.color) LdotN
    else acc

/-- Embeds traceRay(r, depth) (scene.hh): background color on a miss;
otherwise the point-light and spotlight contributions accumulated from
black, plus, when the hit shape's reflectivity is > 0 and depth <
MAX_REFLECT, reflectivity times the color of the reflected ray traced at
depth + 1. The intersection point is computed with the assertion-free
pointAtT; claim C9 shows the getPointAtT assertion holds at this call.
The recursion is on depth below the hard cap, so the definition is total
by the decreasing measure MAX_REFLECT - depth. -/
def traceRay (sc : scene) (r : ray) (depth : ℕ) : rgbcolor :=
  let res := findClosestShape sc.shapes r
  match res.1 with
  | none => DEFAULT_BKCOLOR
  | some obj =>
    let intersectionPt := r.pointAtT res.2
    let N := obj.surfaceNorm intersectionPt
    let afterPoint :=
      sc.pointlights.foldl (pointLightBody sc obj intersectionPt N) rgbcolor.black
    let afterSpot :=
      sc.spotlights.foldl (spotLightBody sc obj intersectionPt N) afterPoint
    if h : obj.reflectivity > 0 ∧ depth < MAX_REFLECT then
      afterSpot + rgbcolor.smulLeft obj.reflectivity
        (traceRay sc (r.reflect intersectionPt N 0.0001) (depth + 1))
    else afterSpot
termination_by MAX_REFLECT - depth
decreasing_by
  have := h.2
  omega

/-- The light-only part of traceRay: what traceRay computes before the
reflection step (and exactly what it returns when it does not
recurse). -/
def shadeLocal (sc : scene) (r : ray) : rgbcolor :=
  let res := findClosestShape sc.shapes r
  match res.1 with
  | none => DEFAULT_BKCOLOR
  | some obj =>
    let intersectionPt := r.pointAtT res.2
    let N := obj.surfaceNorm intersectionPt
    sc.spotlights.foldl (spotLightBody sc obj intersectionPt N)
      (sc.pointlights.foldl (pointLightBody sc obj intersectionPt N) rgbcolor.black)

/-- The values taken by a C++ loop variable in
for (x = lo; x <= hi; x += step), for a positive step (the arealight
constructor asserts its spacings are positive). -/
def loopVals (lo hi step : ℝ) : List ℝ :=
  if h : 0 < step ∧ lo ≤ hi then
    lo :: loopVals (lo + step) hi step
  else []
termination_by (⌊(hi - lo) / step⌋ + 1).toNat
decreasing_by
  obtain ⟨hs, hle⟩ := h
  have hd : (0:ℝ) ≤ (hi - lo) / step := div_nonneg (by linarith) hs.le
  have hfl : (0:ℤ) ≤ ⌊(hi - lo) / step⌋ := Int.floor_nonneg.mpr hd
  have hstep : step ≠ 0 := ne_of_gt hs
  have heq : (hi - (lo + step)) / step = (hi - lo) / step - 1 := by
    field_simp
    ring
  rw [heq, Int.floor_sub_one]
  omega

/-- Embeds static_cast<int> and the (int) cast of C++: truncation toward
zero of a real number. -/
def cppTruncToInt (x : ℝ) : ℤ := if x < 0 then -⌊-x⌋ else ⌊x⌋

/-- Embeds arealight::constructorHelper (arealight.hh): computes uhat
and vhat from the up direction and the (already normalized) surface
normal, computes numlights as the product of the two truncated
dimension/spacing quotients, and tiles point lights over
[-height/2, height/2] x [-width/2, width/2] stepped by the spacings,
each with the parent color divided by numlights. -/
def constructorHelper (color : rgbcolor) (pos norm upDirection : mvector)
    (horizontalSpacing verticalSpacing width height : ℝ) : List light :=
  let uhat := (upDirection.cross norm).norm
  let vhat := (norm.cross uhat).norm
  let numlights : ℤ := cppTruncToInt (width / horizontalSpacing) *
      cppTruncToInt (height / verticalSpacing)
  (loopVals (-height / 2) (height / 2) verticalSpacing).flatMap (fun u =>
    (loopVals (-width / 2) (width / 2) horizontalSpacing).map (fun v =>
      { pos := mvector.smulRight uhat u + mvector.smulRight vhat v + pos,
        color := color.div (numlights : ℝ) }))

/-- Embeds the arealight value constructor (arealight.hh): stores the
normalized surface normal and delegates light generation to
constructorHelper; the result is the lights collection the scene copies
in addAreaLight. -/
def arealightLights (color : rgbcolor) (center surfaceNormal upDirection : mvector)
    (horizontalSpacing verticalSpacing width height : ℝ) : List light :=
  constructorHelper color center surfaceNormal.norm upDirection
    horizontalSpacing verticalSpacing width height

/-- Embeds camera<double, double, 3> (camera.hh); dir, up and right are
the orthonormal basis the constructor computes and dist the focal
distance. -/
structure camera where
  pos : mvector
  dir : mvector
  fov : ℝ
  up : mvector
  right : mvector
  dist : ℝ

/-- Embeds getRayForPixel(x, y, width, height): the per-pixel direction
is dist dir + (0.5 - y/(height-1)) up + (x/(height-1) - centerx) right
with centerx = width/height/2, wrapped in a default (normalizing) ray.
The source's assertions (nonnegative pixel, positive size) always hold
at the renderPPM call sites modelled here. -/
def camera.getRayForPixel (cam : camera) (x y width height : ℕ) : ray :=
  let centerx : ℝ := (width : ℝ) / (height : ℝ) / 2
  let pixelDir := mvector.smulLeft cam.dist cam.dir +
      mvector.smulLeft (0.5 - (y : ℝ) / ((height : ℝ) - 1)) cam.up +
      mvector.smulLeft ((x : ℝ) / ((height : ℝ) - 1) - centerx) cam.right
  ray.make cam.pos pixelDir true

/-- One pixel of renderPPM (scene.hh): trace the camera ray at depth 0,
scale by COLORMAX, clamp each channel into [0, COLORMAX], and emit the
three channels as C++ ints. -/
def emitPixel (sc : scene) (cam : camera) (width height x y : ℕ) : ℤ × ℤ × ℤ :=
  let pixelRay := cam.getRayForPixel x y width height
  let c := traceRay sc pixelRay 0
  let c2 := rgbcolor.smulRight c COLORMAX
  let c3 := c2.clamp 0 COLORMAX
  (cppTruncToInt c3.r, cppTruncToInt c3.g, cppTruncToInt c3.b)

/-- Embeds the pixel loop of renderPPM (scene.hh): rows y = 0 .. height-1
top to bottom, and within each row columns x = 0 .. width-1 left to
right. The PPM header line is output glue and not modelled; the result
is the row-major list of emitted integer triplets. -/
def renderPPM (sc : scene) (cam : camera) (width height : ℕ) : List (ℤ × ℤ × ℤ) :=
  (List.range height).flatMap (fun y =>
    (List.range width).map (fun x => emitPixel sc cam width height x y))

/-- Concrete sphere of radius 2 centered at the origin. -/
def sphereO2 : sphere := ⟨rgbcolor.black, 0, 2, mvector.zero⟩

/-- Concrete ray starting at the origin (inside sphereO2) pointing along
the positive x axis. -/
def rayX : ray := ⟨mvector.zero, ⟨1, 0, 0⟩⟩

/-- Concrete sphere of radius 2 centered at (0, 0, 2); rayX is tangent
to it at the origin. -/
def sphereTan : sphere := ⟨rgbcolor.black, 0, 2, ⟨0, 0, 2⟩⟩

/-- Concrete cylinder of radius 1 and height 2 along the y axis centered
at the origin. -/
def cylY : cylinder := ⟨rgbcolor.black, 0, mvector.zero, 1, ⟨0, 1, 0⟩, 2⟩

/-- Concrete ray aimed at cylY: its projection onto the xz plane enters
the unit circle at time 4 and leaves it at time 6, while its y component
is inside [-1, 1] only at time 6. -/
def raySlant : ray := ⟨⟨-5, -6, 0⟩, ⟨1, 1, 0⟩⟩

/-- A shape whose intersection routine returns the constant time 3. -/
def shapeT3 : shape := ⟨fun _ => 3, fun _ => mvector.zero, rgbcolor.black, 0⟩

/-- A shape whose intersection routine returns the constant time 2. -/
def shapeT2 : shape := ⟨fun _ => 2, fun _ => mvector.zero, rgbcolor.black, 0⟩

/-- A shape hit at constant time 1 with reflectivity 1/2. -/
def shapeRefl : shape :=
  ⟨fun _ => 1, fun _ => ⟨0, 1, 0⟩, ⟨1, 0, 0⟩, 1/2⟩

/-- A scene holding only shapeRefl, shadows off. -/
def sceneRefl : scene := ⟨[], [], [shapeRefl], false⟩

/-- The empty scene, shadows off. -/
def sceneEmpty : scene := ⟨[], [], [], false⟩

/-- A white point light at (0, 2, 0). -/
def lightUp : light := ⟨⟨0, 2, 0⟩, ⟨1, 1, 1⟩⟩

/-- A white shape used as a shading target. -/
def shapeWhite : shape := ⟨fun _ => 1, fun _ => ⟨0, 1, 0⟩, ⟨1, 1, 1⟩, 0⟩

/-- A camera structure value with arbitrary (zero) data, enough for the
pixel-ordering witness on the empty scene. -/
def camZero : camera := ⟨mvector.zero, mvector.zero, 0, mvector.zero, mvector.zero, 0⟩

end

/-- Square root of 4, used to evaluate concrete examples. -/
theorem sqrtFour : Real.sqrt 4 = 2 := by
  rw [show (4:ℝ) = 2 ^ 2 by norm_num]
  exact Real.sqrt_sq (by norm_num)

/-- Square root of 16, used to evaluate concrete examples. -/
theorem sqrtSixteen : Real.sqrt 16 = 4 := by
  rw [show (16:ℝ) = 4 ^ 2 by norm_num]
  exact Real.sqrt_sq (by norm_num)

/-- Unfolds vector addition to components. -/
@[simp]
theorem mvector.add_comp (a b : mvector) :
    a + b = ⟨a.x + b.x, a.y + b.y, a.z + b.z⟩ := rfl

/-- Unfolds vector subtraction to components. -/
@[simp]
theorem mvector.sub_comp (a b : mvector) :
    a - b = ⟨a.x - b.x, a.y - b.y, a.z - b.z⟩ := rfl

/-- Unfolds vector negation to components. -/
@[simp]
theorem mvector.neg_comp (a : mvector) :
    -a = ⟨a.x * -1, a.y * -1, a.z * -1⟩ := rfl

/-- Unfolds color addition to components. -/
@[simp]
theorem rgbcolor.add_chan (a c : rgbcolor) :
    a + c = ⟨a.r + c.r, a.g + c.g, a.b + c.b⟩ := rfl

/-- Unfolds the componentwise color product. -/
@[simp]
theorem rgbcolor.mul_chan (a c : rgbcolor) :
    a * c = ⟨a.r * c.r, a.g * c.g, a.b * c.b⟩ := rfl

/-- The magnitude-sorted pair of cylinder::intersection has both
components at least c exactly when both unsorted values are. -/
theorem swap_pair_both_ge (v1 v2 : mvector) (c : ℝ) :
    (mvector.magsq (if v1.magsq > v2.magsq then (v2, v1) else (v1, v2)).1 ≥ c ∧
     mvector.magsq (if v1.magsq > v2.magsq then (v2, v1) else (v1, v2)).2 ≥ c) ↔
    (v1.magsq ≥ c ∧ v2.magsq ≥ c) := by
  split_ifs <;> simp <;> exact and_comm

/-- Every path of getIntersections assigns the t1 out-parameter slot, so
sphere::intersection does not depend on the uninitialized locals it
passes in. -/
theorem intersection_junk_irrelevant (s : sphere) (r : ray) (t10 t20 : ℝ) :
    (s.getIntersections r t10 t20).2.1 = s.intersection r := by
  rw [sphere.intersection]
  unfold sphere.getIntersections
  dsimp only
  split_ifs <;> rfl

/-- C8: for every pair of 3-dimensional vectors u and v, the cross
product of mvector.hh satisfies u x v = -(v x u), and u x v is
orthogonal to both u and v: its dot product with each is exactly zero
in real arithmetic. -/
theorem cross_antisymm_and_orthogonal (u v : mvector) :
    u.cross v = -(v.cross u) ∧
    (u.cross v).dot u = 0 ∧ (u.cross v).dot v = 0 := by
  refine ⟨?_, ?_, ?_⟩
  · show u.cross v = mvector.neg (v.cross u)
    unfold mvector.cross mvector.neg
    ext <;> dsimp <;> ring
  · unfold mvector.cross mvector.dot
    ring
  · unfold mvector.cross mvector.dot
    ring

/-- C1: evaluation of sphere::getIntersections and sphere::intersection
at a ray whose origin is inside the sphere (quadratic roots -2 and 2).
The helper discards the negative root by overwriting its t1 slot with
the sentinel, keeping the positive root 2 only in t2, and intersection
— which returns the t1 slot — returns RAY_MISS instead of the positive
root the specification promises. -/
theorem sphere_intersection_inside_origin_returns_miss :
    sphereO2.getIntersections rayX 37 42 = (1, RAY_MISS, 2) ∧
    sphereO2.intersection rayX = RAY_MISS ∧ RAY_MISS ≠ (2:ℝ) := by
  have hA : sphereO2.quadA rayX = 1 := by
    norm_num [sphere.quadA, sphereO2, rayX, mvector.dot, mvector.zero]
  have hB : sphereO2.quadB rayX = 0 := by
    norm_num [sphere.quadB, sphereO2, rayX, mvector.dot, mvector.zero]
  have hC : sphereO2.quadC rayX = -4 := by
    norm_num [sphere.quadC, sphereO2, rayX, mvector.dot, mvector.zero]
  have hD : sphereO2.discrim rayX = 16 := by
    rw [sphere.discrim, hA, hB, hC]
    norm_num
  have h1 : sphereO2.root1 rayX = 2 := by
    rw [sphere.root1, hA, hB, hD, sqrtSixteen]
    norm_num
  have h2 : sphereO2.root2 rayX = -2 := by
    rw [sphere.root2, hA, hB, hD, sqrtSixteen]
    norm_num
  have hLo : sphereO2.rootLo rayX = -2 := by
    rw [sphere.rootLo, h1, h2]
    norm_num
  have hHi : sphereO2.rootHi rayX = 2 := by
    rw [sphere.rootHi, h1, h2]
    norm_num
  refine ⟨?_, ?_, by norm_num [RAY_MISS]⟩
  · rw [sphere.getIntersections, hD, hLo, hHi]
    norm_num
  · rw [sphere.intersection, sphere.getIntersections, hD, hLo, hHi]
    norm_num

/-- C10: in the tangent case (discriminant exactly zero and the root
-b/(2a) nonnegative), getIntersections returns count 1, writes the root
into the first out-parameter slot, and leaves the second slot at
whatever value the caller passed in — it is not set to the miss
sentinel — so a caller that reads t2 unconditionally after the call
(as cylinder::intersection does) observes t2's prior value. -/
theorem getIntersections_tangent_leaves_t2 (s : sphere) (r : ray) (t10 t20 : ℝ)
    (hdisc : s.discrim r = 0)
    (hroot : 0 ≤ -s.quadB r / (2 * s.quadA r)) :
    s.getIntersections r t10 t20 = (1, -s.quadB r / (2 * s.quadA r), t20) := by
  rw [sphere.getIntersections, hdisc]
  rw [if_neg (lt_irrefl (0:ℝ)), if_pos rfl]
  dsimp only
  rw [if_neg (not_lt.mpr hroot)]

/-- Witness for C10: the tangent sphere/ray pair, with two different
prior values 42 and 99 of the caller's t2 variable, both returned
unchanged in the third slot. -/
theorem getIntersections_tangent_leaves_t2_witness :
    sphereTan.getIntersections rayX 37 42 =
      (1, -sphereTan.quadB rayX / (2 * sphereTan.quadA rayX), 42) ∧
    sphereTan.getIntersections rayX 37 99 =
      (1, -sphereTan.quadB rayX / (2 * sphereTan.quadA rayX), 99) := by
  have hd : sphereTan.discrim rayX = 0 := by
    norm_num [sphere.discrim, sphere.quadA, sphere.quadB, sphere.quadC,
      sphereTan, rayX, mvector.dot, mvector.zero]
  have hr : 0 ≤ -sphereTan.quadB rayX / (2 * sphereTan.quadA rayX) := by
    norm_num [sphere.quadA, sphere.quadB, sphereTan, rayX, mvector.dot,
      mvector.zero]
  exact ⟨getIntersections_tangent_leaves_t2 sphereTan rayX 37 42 hd hr,
    getIntersections_tangent_leaves_t2 sphereTan rayX 37 99 hd hr⟩

/-- Normalizing the unit vector along the y axis leaves it unchanged. -/
theorem normY : mvector.norm ⟨0, 1, 0⟩ = ⟨0, 1, 0⟩ := by
  norm_num [mvector.norm, mvector.mag, mvector.magsq, mvector.dot,
    Real.sqrt_one]

/-- The perpendicular-projected helper solve for cylY and raySlant: two
roots, 4 and 6. -/
theorem cylY_fakesphere_solve :
    cylY.fakesphere.getIntersections (cylY.projRay raySlant) 9 9 = (2, 4, 6) := by
  have hray : cylY.projRay raySlant = ⟨⟨-5, 0, 0⟩, ⟨1, 0, 0⟩⟩ := by
    norm_num [cylinder.projRay, ray.make, mvector.proj, normY,
      mvector.dot, mvector.smulLeft, cylY, raySlant]
  have hsph : cylY.fakesphere = ⟨rgbcolor.black, 0, 1, ⟨0, 0, 0⟩⟩ := by
    norm_num [cylinder.fakesphere, mvector.proj, normY, mvector.dot,
      mvector.smulLeft, mvector.zero, cylY]
  have hA : cylY.fakesphere.quadA (cylY.projRay raySlant) = 1 := by
    norm_num [sphere.quadA, hray, mvector.dot]
  have hB : cylY.fakesphere.quadB (cylY.projRay raySlant) = -10 := by
    norm_num [sphere.quadB, hray, hsph, mvector.dot]
  have hC : cylY.fakesphere.quadC (cylY.projRay raySlant) = 24 := by
    norm_num [sphere.quadC, hray, hsph, mvector.dot]
  have hD : cylY.fakesphere.discrim (cylY.projRay raySlant) = 4 := by
    rw [sphere.discrim, hA, hB, hC]
    norm_num
  have h1 : cylY.fakesphere.root1 (cylY.projRay raySlant) = 6 := by
    rw [sphere.root1, hA, hB, hD, sqrtFour]
    norm_num
  have h2 : cylY.fakesphere.root2 (cylY.projRay raySlant) = 4 := by
    rw [sphere.root2, hA, hB, hD, sqrtFour]
    norm_num
  have hLo : cylY.fakesphere.rootLo (cylY.projRay raySlant) = 4 := by
    rw [sphere.rootLo, h1, h2]
    norm_num
  have hHi : cylY.fakesphere.rootHi (cylY.projRay raySlant) = 6 := by
    rw [sphere.rootHi, h1, h2]
    norm_num
  rw [sphere.getIntersections, hD, hLo, hHi]
  norm_num

/-- The axis-parallel displacement of the cylY/raySlant configuration at
candidate time 4 has squared magnitude 4 (outside the height range). -/
theorem cylY_parDisp_at4 : (cylY.parDisp raySlant 4).magsq = 4 := by
  norm_num [cylinder.parDisp, mvector.proj, normY, mvector.dot,
    mvector.smulLeft, mvector.smulRight, mvector.magsq, mvector.zero,
    cylY, raySlant]

/-- The axis-parallel displacement of the cylY/raySlant configuration at
candidate time 6 has squared magnitude 0 (inside the height range). -/
theorem cylY_parDisp_at6 : (cylY.parDisp raySlant 6).magsq = 0 := by
  norm_num [cylinder.parDisp, mvector.proj, normY, mvector.dot,
    mvector.smulLeft, mvector.smulRight, mvector.magsq, mvector.zero,
    cylY, raySlant]

/-- Counterexample for C2: for cylY and raySlant the helper roots are 4
and 6; the candidate point at the returned time 4 lies outside the
height range while the candidate point at root 6 lies within it, so the
returned time is not the nearest root whose candidate point is within
the height range (that root is 6). -/
theorem cylinder_nearest_valid_root_false :
    cylY.intersection raySlant 9 9 = 4 ∧
    cylY.fakesphere.getIntersections (cylY.projRay raySlant) 9 9 = (2, 4, 6) ∧
    (cylY.parDisp raySlant 4).magsq ≥ cylY.height * cylY.height / 4 ∧
    (cylY.parDisp raySlant 6).magsq < cylY.height * cylY.height / 4 := by
  refine ⟨?_, cylY_fakesphere_solve, ?_, ?_⟩
  · unfold cylinder.intersection
    dsimp only
    rw [cylY_fakesphere_solve]
    norm_num [cylY_parDisp_at4, cylY_parDisp_at6, show cylY.height = 2 from rfl]
  · rw [cylY_parDisp_at4]
    norm_num [show cylY.height = 2 from rfl]
  · rw [cylY_parDisp_at6]
    norm_num [show cylY.height = 2 from rfl]

/-- C2 (amended): cylinder::intersection returns the miss sentinel when
the axis-parallel displacements at both helper roots are outside the
height range, and otherwise returns the helper's first root slot t1
unconditionally — even when only the candidate point at the other root
t2 lies within the height range. -/
theorem cylinder_intersection_returns_t1 (cyl : cylinder) (r : ray) (t10 t20 : ℝ) :
    ((cyl.parDisp r (cyl.fakesphere.getIntersections (cyl.projRay r) t10 t20).2.1).magsq ≥
        cyl.height * cyl.height / 4 ∧
      (cyl.parDisp r (cyl.fakesphere.getIntersections (cyl.projRay r) t10 t20).2.2).magsq ≥
        cyl.height * cyl.height / 4 →
      cyl.intersection r t10 t20 = RAY_MISS) ∧
    (¬((cyl.parDisp r (cyl.fakesphere.getIntersections (cyl.projRay r) t10 t20).2.1).magsq ≥
        cyl.height * cyl.height / 4 ∧
      (cyl.parDisp r (cyl.fakesphere.getIntersections (cyl.projRay r) t10 t20).2.2).magsq ≥
        cyl.height * cyl.height / 4) →
      cyl.intersection r t10 t20 =
        (cyl.fakesphere.getIntersections (cyl.projRay r) t10 t20).2.1) := by
  constructor
  · intro h
    unfold cylinder.intersection
    dsimp only
    rw [if_pos ((swap_pair_both_ge _ _ _).mpr h)]
  · intro h
    unfold cylinder.intersection
    dsimp only
    rw [if_neg (fun hc => h ((swap_pair_both_ge _ _ _).mp hc))]

/-- Witness for C2 (amended) at the concrete cylY/raySlant input: the
candidate points are not both outside the height range, and the
returned time is the helper's first root slot. -/
theorem cylinder_intersection_returns_t1_witness :
    cylY.intersection raySlant 9 9 =
      (cylY.fakesphere.getIntersections (cylY.projRay raySlant) 9 9).2.1 := by
  apply (cylinder_intersection_returns_t1 cylY raySlant 9 9).2
  rw [cylY_fakesphere_solve]
  norm_num [cylY_parDisp_at4, cylY_parDisp_at6, show cylY.height = 2 from rfl]

/-- Invariant of the findClosestShape fold. Starting from an
accumulator that is either (no shape, RAY_MISS) or a tracked shape with
a strictly positive time, the fold either leaves the accumulator
unchanged — and every qualifying shape of the list has time at least
the tracked one — or returns the first shape of the list achieving the
least qualifying time that strictly beats the accumulator. -/
theorem fcs_foldl_spec (r : ray) (l : List shape) :
    ∀ acc : Option shape × ℝ,
      (acc.1 = none → acc.2 = RAY_MISS) →
      (acc.1.isSome → 0 < acc.2) →
      (l.foldl (fcsStep r) acc = acc ∧
        ∀ s ∈ l, s.intersection r ≠ RAY_MISS ∧ s.intersection r > 0 →
          acc.1.isSome ∧ acc.2 ≤ s.intersection r) ∨
      (∃ l1 obj l2, l = l1 ++ obj :: l2 ∧
        (obj.intersection r ≠ RAY_MISS ∧ obj.intersection r > 0) ∧
        l.foldl (fcsStep r) acc = (some obj, obj.intersection r) ∧
        (∀ s ∈ l, s.intersection r ≠ RAY_MISS ∧ s.intersection r > 0 →
          obj.intersection r ≤ s.intersection r) ∧
        (∀ s ∈ l1, s.intersection r ≠ RAY_MISS ∧ s.intersection r > 0 →
          obj.intersection r < s.intersection r) ∧
        (acc.1 = none ∨ obj.intersection r < acc.2)) := by
  induction l with
  | nil =>
    intro acc _ _
    left
    exact ⟨rfl, by simp⟩
  | cons s l ih =>
    intro acc h1 h2
    rw [List.foldl_cons]
    by_cases hq : s.intersection r ≠ RAY_MISS ∧ s.intersection r > 0
    · by_cases hrepl : acc.1 = none ∨ s.intersection r < acc.2
      · -- the step replaces the accumulator with (some s, t)
        have hstep : fcsStep r acc s = (some s, s.intersection r) := by
          unfold fcsStep
          dsimp only
          rw [if_pos hq]
          by_cases hm : acc.2 = RAY_MISS
          · rw [if_pos hm]
          · rcases hrepl with h | h
            · exact absurd (h1 h) hm
            · rw [if_neg hm, if_pos h]
        rw [hstep]
        have h2' : ((some s : Option shape), s.intersection r).1.isSome →
            0 < ((some s : Option shape), s.intersection r).2 := fun _ => hq.2
        rcases ih ((some s : Option shape), s.intersection r) (by simp) h2' with
          ⟨heq, hall⟩ | ⟨l1, obj, l2, hsplit, hqo, hres, hmin, hstrict, hbeat⟩
        · right
          refine ⟨[], s, l, rfl, hq, heq, ?_, by simp, hrepl⟩
          intro s' hs' hq'
          rcases List.mem_cons.mp hs' with rfl | hs'
          · exact le_refl _
          · exact (hall s' hs' hq').2
        · right
          have hbeat' : obj.intersection r < s.intersection r := by
            rcases hbeat with h | h
            · simp at h
            · exact h
          refine ⟨s :: l1, obj, l2, by rw [hsplit, List.cons_append], hqo, hres, ?_, ?_, ?_⟩
          · intro s' hs' hq'
            rcases List.mem_cons.mp hs' with rfl | hs'
            · exact le_of_lt hbeat'
            · exact hmin s' hs' hq'
          · intro s' hs' hq'
            rcases List.mem_cons.mp hs' with rfl | hs'
            · exact hbeat'
            · exact hstrict s' hs' hq'
          · rcases hrepl with h | h
            · exact Or.inl h
            · exact Or.inr (lt_trans hbeat' h)
      · -- qualifying but not strictly better: the accumulator is kept
        push_neg at hrepl
        obtain ⟨hsome, hle⟩ := hrepl
        have hisSome : acc.1.isSome := Option.isSome_iff_ne_none.mpr hsome
        have haccpos : 0 < acc.2 := h2 hisSome
        have hm : acc.2 ≠ RAY_MISS := by
          rw [RAY_MISS]
          intro h
          rw [h] at haccpos
          norm_num at haccpos
        have hstep : fcsStep r acc s = acc := by
          unfold fcsStep
          dsimp only
          rw [if_pos hq, if_neg hm, if_neg (not_lt.mpr hle)]
        rw [hstep]
        rcases ih acc h1 h2 with
          ⟨heq, hall⟩ | ⟨l1, obj, l2, hsplit, hqo, hres, hmin, hstrict, hbeat⟩
        · left
          refine ⟨heq, ?_⟩
          intro s' hs' hq'
          rcases List.mem_cons.mp hs' with rfl | hs'
          · exact ⟨hisSome, hle⟩
          · exact hall s' hs' hq'
        · right
          have hbeat' : obj.intersection r < acc.2 := by
            rcases hbeat with h | h
            · exact absurd h hsome
            · exact h
          refine ⟨s :: l1, obj, l2, by rw [hsplit, List.cons_append], hqo, hres, ?_, ?_, hbeat⟩
          · intro s' hs' hq'
            rcases List.mem_cons.mp hs' with rfl | hs'
            · exact le_of_lt (lt_of_lt_of_le hbeat' hle)
            · exact hmin s' hs' hq'
          · intro s' hs' hq'
            rcases List.mem_cons.mp hs' with rfl | hs'
            · exact lt_of_lt_of_le hbeat' hle
            · exact hstrict s' hs' hq'
    · -- not qualifying: the shape is skipped
      have hstep : fcsStep r acc s = acc := by
        unfold fcsStep
        dsimp only
        rw [if_neg hq]
      rw [hstep]
      rcases ih acc h1 h2 with
        ⟨heq, hall⟩ | ⟨l1, obj, l2, hsplit, hqo, hres, hmin, hstrict, hbeat⟩
      · left
        refine ⟨heq, ?_⟩
        intro s' hs' hq'
        rcases List.mem_cons.mp hs' with rfl | hs'
        · exact absurd hq' hq
        · exact hall s' hs' hq'
      · right
        refine ⟨s :: l1, obj, l2, by rw [hsplit, List.cons_append], hqo, hres, ?_, ?_, hbeat⟩
        · intro s' hs' hq'
          rcases List.mem_cons.mp hs' with rfl | hs'
          · exact absurd hq' hq
          · exact hmin s' hs' hq'
        · intro s' hs' hq'
          rcases List.mem_cons.mp hs' with rfl | hs'
          · exact absurd hq' hq
          · exact hstrict s' hs' hq'

/-- C3: findClosestShape returns the shape with the minimum strictly
positive intersection time (the sentinel and nonpositive times never
qualify), resolving exact ties in favor of the first shape in iteration
order — every qualifying shape earlier in the list has a strictly larger
time — and when no shape qualifies it returns no shape with the
out-parameter left at the miss sentinel. -/
theorem findClosestShape_spec (shapes : List shape) (r : ray) :
    ((findClosestShape shapes r).1 = none →
      (findClosestShape shapes r).2 = RAY_MISS ∧
      ∀ s ∈ shapes, ¬(s.intersection r ≠ RAY_MISS ∧ s.intersection r > 0)) ∧
    (∀ obj, (findClosestShape shapes r).1 = some obj →
      ∃ l1 l2, shapes = l1 ++ obj :: l2 ∧
        (findClosestShape shapes r).2 = obj.intersection r ∧
        0 < obj.intersection r ∧
        (∀ s ∈ shapes, s.intersection r ≠ RAY_MISS ∧ s.intersection r > 0 →
          obj.intersection r ≤ s.intersection r) ∧
        (∀ s ∈ l1, s.intersection r ≠ RAY_MISS ∧ s.intersection r > 0 →
          obj.intersection r < s.intersection r)) := by
  have H := fcs_foldl_spec r shapes ((none : Option shape), RAY_MISS)
    (fun _ => rfl) (by simp)
  rcases H with ⟨heq, hall⟩ | ⟨l1, obj, l2, hsplit, hqo, hres, hmin, hstrict, _⟩
  · have hfcs : findClosestShape shapes r = ((none : Option shape), RAY_MISS) := heq
    constructor
    · intro _
      refine ⟨by rw [hfcs], ?_⟩
      intro s hs hq
      have := (hall s hs hq).1
      simp at this
    · intro obj hobj
      rw [hfcs] at hobj
      simp at hobj
  · have hfcs : findClosestShape shapes r = (some obj, obj.intersection r) := hres
    constructor
    · intro hnone
      rw [hfcs] at hnone
      simp at hnone
    · intro obj' hobj'
      rw [hfcs] at hobj'
      simp only [Option.some.injEq] at hobj'
      subst hobj'
      exact ⟨l1, l2, hsplit, by rw [hfcs], hqo.2, hmin, hstrict⟩

/-- Witness for C3: with a first shape hit at time 3 and a second hit at
time 2, the scan reports the second shape's time. -/
theorem findClosestShape_spec_witness :
    (findClosestShape [shapeT3, shapeT2] rayX).2 = shapeT2.intersection rayX := by
  obtain ⟨l1, l2, _, h2, _, _, _⟩ :=
    (findClosestShape_spec [shapeT3, shapeT2] rayX).2 shapeT2
      (by norm_num [findClosestShape, fcsStep, shapeT3, shapeT2, RAY_MISS])
  exact h2

/-- C9: whenever findClosestShape returns a shape, the intersection time
it reports is strictly positive, so the t >= 0 assertion of
ray::getPointAtT holds when traceRay computes the hit point from that
time: the assertion-checking getPointAtT returns some and agrees with
the assertion-free pointAtT that the traceRay model uses. -/
theorem findClosestShape_time_pos (shapes : List shape) (r : ray) (obj : shape)
    (hobj : (findClosestShape shapes r).1 = some obj) :
    0 < (findClosestShape shapes r).2 ∧
    r.getPointAtT ((findClosestShape shapes r).2) =
      some (r.pointAtT ((findClosestShape shapes r).2)) := by
  have H := fcs_foldl_spec r shapes ((none : Option shape), RAY_MISS)
    (fun _ => rfl) (by simp)
  rcases H with ⟨heq, _⟩ | ⟨_, obj', _, _, hqo, hres, _, _, _⟩
  · have hfcs : findClosestShape shapes r = ((none : Option shape), RAY_MISS) := heq
    rw [hfcs] at hobj
    simp at hobj
  · have hfcs : findClosestShape shapes r = (some obj', obj'.intersection r) := hres
    have hpos : 0 < (findClosestShape shapes r).2 := by
      rw [hfcs]
      exact hqo.2
    refine ⟨hpos, ?_⟩
    unfold ray.getPointAtT
    rw [if_pos (le_of_lt hpos)]

/-- Witness for C9: a single shape hit at constant time 2; the reported
time is positive and the hit-point computation succeeds. -/
theorem findClosestShape_time_pos_witness :
    0 < (findClosestShape [shapeT2] rayX).2 ∧
    rayX.getPointAtT ((findClosestShape [shapeT2] rayX).2) =
      some (rayX.pointAtT ((findClosestShape [shapeT2] rayX).2)) :=
  findClosestShape_time_pos [shapeT2] rayX shapeT2
    (by norm_num [findClosestShape, fcsStep, shapeT2, RAY_MISS])

/-- C4: in the point-light loop of traceRay, a light contributes exactly
lightColor * objectColor * (L.N) to the accumulated color when L.N > 0
and shadows are disabled or the DELTA-offset shadow ray toward the
light hits no shape; when L.N <= 0, or when shadows are enabled and the
shadow ray hits any shape at all (no comparison with the distance to the
light), the light contributes nothing. -/
theorem traceRay_pointlight_contribution (sc : scene) (obj : shape)
    (pt N : mvector) (acc : rgbcolor) (lt : light) :
    (0 < (lt.pos - pt).norm.dot N →
      (sc.useShadows = false ∨
        (findClosestShape sc.shapes
          (ray.make (pt + mvector.smulRight N DELTA) (lt.pos - pt).norm true)).1 = none) →
      pointLightBody sc obj pt N acc lt =
        acc + rgbcolor.smulRight (lt.color.mulc obj.color) ((lt.pos - pt).norm.dot N)) ∧
    ((lt.pos - pt).norm.dot N ≤ 0 →
      pointLightBody sc obj pt N acc lt = acc) ∧
    (sc.useShadows = true →
      (findClosestShape sc.shapes
        (ray.make (pt + mvector.smulRight N DELTA) (lt.pos - pt).norm true)).1.isSome →
      pointLightBody sc obj pt N acc lt = acc) := by
  refine ⟨?_, ?_, ?_⟩
  · intro hL hsh
    unfold pointLightBody
    dsimp only
    rw [if_neg ?_, if_pos hL]
    rintro ⟨hs, hhit⟩
    rcases hsh with h | h
    · rw [h] at hs
      exact Bool.false_ne_true hs
    · rw [h] at hhit
      simp at hhit
  · intro hL
    unfold pointLightBody
    dsimp only
    by_cases hc : sc.useShadows = true ∧
        (findClosestShape sc.shapes
          (ray.make (pt + mvector.smulRight N DELTA) (lt.pos - pt).norm true)).1.isSome = true
    · rw [if_pos hc]
    · rw [if_neg hc, if_neg (not_lt.mpr hL)]
  · intro hs hhit
    unfold pointLightBody
    dsimp only
    rw [if_pos ⟨hs, hhit⟩]

/-- Witness for C4: with shadows off, a white light straight above a
white surface point with upward normal contributes exactly
lightColor * objectColor * (L.N). -/
theorem traceRay_pointlight_contribution_witness :
    pointLightBody sceneEmpty shapeWhite mvector.zero ⟨0, 1, 0⟩ rgbcolor.black lightUp =
      rgbcolor.black + rgbcolor.smulRight (lightUp.color.mulc shapeWhite.color)
        ((lightUp.pos - mvector.zero).norm.dot ⟨0, 1, 0⟩) := by
  apply (traceRay_pointlight_contribution sceneEmpty shapeWhite mvector.zero
    ⟨0, 1, 0⟩ rgbcolor.black lightUp).1
  · have hn : (lightUp.pos - mvector.zero).norm = ⟨0, 1, 0⟩ := by
      norm_num [lightUp, mvector.zero, mvector.norm, mvector.mag,
        mvector.magsq, mvector.dot, sqrtFour]
    rw [hn]
    norm_num [mvector.dot]
  · exact Or.inl rfl

/-- C5: traceRay adds a reflected-ray color, traced at depth + 1, exactly
when the hit shape's reflectivity is strictly positive and the current
depth is below MAX_REFLECT; a call at depth = MAX_REFLECT (or beyond)
never recurses regardless of reflectivity and returns the purely local
shading, so — together with the decreasing measure MAX_REFLECT - depth
that makes the definition total — traceRay terminates for every scene
and ray. -/
theorem traceRay_reflection_cap (sc : scene) (r : ray) (depth : ℕ) :
    (MAX_REFLECT ≤ depth → traceRay sc r depth = shadeLocal sc r) ∧
    (∀ obj, (findClosestShape sc.shapes r).1 = some obj →
      obj.reflectivity ≤ 0 → traceRay sc r depth = shadeLocal sc r) ∧
    (∀ obj, (findClosestShape sc.shapes r).1 = some obj →
      0 < obj.reflectivity → depth < MAX_REFLECT →
      traceRay sc r depth = shadeLocal sc r +
        rgbcolor.smulLeft obj.reflectivity
          (traceRay sc
            (r.reflect (r.pointAtT ((findClosestShape sc.shapes r).2))
              (obj.surfaceNorm (r.pointAtT ((findClosestShape sc.shapes r).2)))
              0.0001)
            (depth + 1))) := by
  refine ⟨?_, ?_, ?_⟩
  · intro hd
    rw [traceRay, shadeLocal]
    dsimp only
    cases h : (findClosestShape sc.shapes r).1 with
    | none => rfl
    | some obj =>
      dsimp only
      rw [dif_neg ?_]
      rintro ⟨_, hlt⟩
      exact absurd hlt (not_lt.mpr hd)
  · intro obj hobj hrefl
    rw [traceRay, shadeLocal]
    dsimp only
    rw [hobj]
    dsimp only
    rw [dif_neg ?_]
    rintro ⟨hpos, _⟩
    exact absurd hpos (not_lt.mpr hrefl)
  · intro obj hobj hrefl hdepth
    rw [traceRay, shadeLocal]
    dsimp only
    rw [hobj]
    dsimp only
    rw [dif_pos ⟨hrefl, hdepth⟩]

/-- Witness for C5: a scene whose only shape has reflectivity 1/2, traced
at depth exactly MAX_REFLECT: the result is the purely local shading,
with no recursion. -/
theorem traceRay_reflection_cap_witness :
    traceRay sceneRefl rayX 10 = shadeLocal sceneRefl rayX :=
  (traceRay_reflection_cap sceneRefl rayX 10).1 (by norm_num [MAX_REFLECT])

/-- Unfolding step of loopVals when the loop continues. -/
theorem loopVals_pos {lo hi step : ℝ} (h : 0 < step ∧ lo ≤ hi) :
    loopVals lo hi step = lo :: loopVals (lo + step) hi step := by
  rw [loopVals, dif_pos h]

/-- Unfolding step of loopVals when the loop stops. -/
theorem loopVals_neg {lo hi step : ℝ} (h : ¬(0 < step ∧ lo ≤ hi)) :
    loopVals lo hi step = [] := by
  rw [loopVals, dif_neg h]

/-- The grid loop from -1/2 to 1/2 stepped by 1/2 runs three times: the
inclusive upper bound is reached exactly. -/
theorem loopVals_half : loopVals ((-1 : ℝ) / 2) (1 / 2) (1 / 2) =
    [(-1 : ℝ) / 2, 0, 1 / 2] := by
  rw [loopVals_pos (by norm_num), show ((-1 : ℝ) / 2) + 1 / 2 = 0 by norm_num,
    loopVals_pos (by norm_num), show ((0 : ℝ)) + 1 / 2 = 1 / 2 by norm_num,
    loopVals_pos (by norm_num), show ((1 : ℝ) / 2) + 1 / 2 = 1 by norm_num,
    loopVals_neg (by norm_num)]

/-- The C++ int cast of the real number 2 is 2. -/
theorem cppTruncToInt_two : cppTruncToInt 2 = 2 := by
  rw [cppTruncToInt, if_neg (by norm_num),
    show (2 : ℝ) = ((2 : ℤ) : ℝ) by norm_num, Int.floor_intCast]

/-- Normalizing the unit vector along the z axis leaves it unchanged. -/
theorem normZ : mvector.norm ⟨0, 0, 1⟩ = ⟨0, 0, 1⟩ := by
  norm_num [mvector.norm, mvector.mag, mvector.magsq, mvector.dot,
    Real.sqrt_one]

/-- Normalizing the unit vector along the x axis leaves it unchanged. -/
theorem normX : mvector.norm ⟨1, 0, 0⟩ = ⟨1, 0, 0⟩ := by
  norm_num [mvector.norm, mvector.mag, mvector.magsq, mvector.dot,
    Real.sqrt_one]

/-- The light count divisor computed by constructorHelper for unit width
and height with spacings 1/2: two truncated quotients of 2, product 4. -/
theorem numlights_unit_half :
    cppTruncToInt ((1 : ℝ) / (1 / 2)) * cppTruncToInt ((1 : ℝ) / (1 / 2)) = 4 := by
  have h2 : cppTruncToInt ((1 : ℝ) / (1 / 2)) = 2 := by
    rw [show ((1 : ℝ) / (1 / 2)) = 2 by norm_num, cppTruncToInt,
      if_neg (by norm_num), show (2 : ℝ) = ((2 : ℤ) : ℝ) by norm_num,
      Int.floor_intCast]
  rw [h2]
  norm_num

/-- C6: evaluation of the arealight construction at the failing input
(white parent color, unit width and height, spacings 1/2): the divisor
computed for the sub-light colors is floor(1/(1/2)) * floor(1/(1/2)) = 4,
but the inclusive grid loops generate 3 * 3 = 9 sub-lights, each with
color parent/4, so the channel sum is 9/4, not the parent's 1: the
number of generated lights differs from the divisor and energy is not
conserved. -/
theorem arealight_energy_not_conserved :
    (arealightLights ⟨1, 1, 1⟩ mvector.zero ⟨0, 0, 1⟩ ⟨0, 1, 0⟩
        (1/2) (1/2) 1 1).length = 9 ∧
    cppTruncToInt ((1 : ℝ) / (1 / 2)) * cppTruncToInt ((1 : ℝ) / (1 / 2)) = 4 ∧
    (arealightLights ⟨1, 1, 1⟩ mvector.zero ⟨0, 0, 1⟩ ⟨0, 1, 0⟩
        (1/2) (1/2) 1 1).map light.color =
      List.replicate 9 (rgbcolor.div ⟨1, 1, 1⟩ 4) ∧
    ((arealightLights ⟨1, 1, 1⟩ mvector.zero ⟨0, 0, 1⟩ ⟨0, 1, 0⟩
        (1/2) (1/2) 1 1).foldl (fun a l => a + l.color.r) 0) = 9 / 4 ∧
    (9 / 4 : ℝ) ≠ 1 := by
  have hcross1 : mvector.cross ⟨0, 1, 0⟩ ⟨0, 0, 1⟩ = ⟨1, 0, 0⟩ := by
    norm_num [mvector.cross]
  have hcross2 : mvector.cross ⟨0, 0, 1⟩ ⟨1, 0, 0⟩ = ⟨0, 1, 0⟩ := by
    norm_num [mvector.cross]
  refine ⟨?_, numlights_unit_half, ?_, ?_, by norm_num⟩ <;>
    simp only [arealightLights, constructorHelper, normZ, hcross1, normX,
      hcross2, normY, loopVals_half] <;>
    simp [cppTruncToInt_two, rgbcolor.div, List.replicate, mvector.smulRight,
      mvector.zero] <;>
    norm_num

/-- Length of a row-major pixel listing: h rows of w pixels. -/
theorem flatMap_rows_length {α : Type} (w : ℕ) (f : ℕ → ℕ → α) (h : ℕ) :
    ((List.range h).flatMap (fun y => (List.range w).map (fun x => f x y))).length =
      h * w := by
  induction h with
  | zero => simp
  | succ n ih =>
    rw [List.range_succ, List.flatMap_append, List.length_append, ih]
    simp [Nat.succ_mul]

/-- Row-major indexing of the pixel listing: pixel (x, y) sits at index
y * w + x. -/
theorem flatMap_rows_get {α : Type} (w : ℕ) (f : ℕ → ℕ → α) (h : ℕ) :
    ∀ x y : ℕ, x < w → y < h →
      ((List.range h).flatMap
        (fun y => (List.range w).map (fun x => f x y)))[y * w + x]? =
        some (f x y) := by
  induction h with
  | zero =>
    intro x y _ hy
    exact absurd hy (Nat.not_lt_zero y)
  | succ n ih =>
    intro x y hx hy
    rw [List.range_succ, List.flatMap_append]
    by_cases hyn : y < n
    · rw [List.getElem?_append_left ?_]
      · exact ih x y hx hyn
      · rw [flatMap_rows_length]
        have h1 : (y + 1) * w ≤ n * w := Nat.mul_le_mul_right w hyn
        have h2 : y * w + x < (y + 1) * w := by
          rw [Nat.succ_mul]
          omega
        omega
    · have hyeq : y = n := by omega
      subst hyeq
      rw [List.getElem?_append_right ?_]
      · rw [flatMap_rows_length]
        have hsub : y * w + x - y * w = x := by omega
        rw [hsub]
        simp [List.getElem?_range hx]
      · rw [flatMap_rows_length]
        exact Nat.le_add_right _ _

/-- The C++ int cast of the real number 255 is 255. -/
theorem cppTruncToInt_255 : cppTruncToInt 255 = 255 := by
  rw [cppTruncToInt, if_neg (by norm_num),
    show (255 : ℝ) = ((255 : ℤ) : ℝ) by norm_num, Int.floor_intCast]

/-- The C++ int cast of the real number 0 is 0. -/
theorem cppTruncToInt_zero : cppTruncToInt 0 = 0 := by
  rw [cppTruncToInt, if_neg (by norm_num), Int.floor_zero]

/-- C7: renderPPM processes pixels row by row, top to bottom and left to
right within each row — the triplet of pixel (x, y) sits at row-major
index y * width + x — and each pixel is the traced color scaled by 255
then clamped per channel into [0, 255] before the integer cast: a
channel computed as 1.4 (scaled to 357) emits 255, and a negative
computed channel emits 0. -/
theorem renderPPM_order_and_clamp (sc : scene) (cam : camera)
    (width height x y : ℕ) (hx : x < width) (hy : y < height) :
    (renderPPM sc cam width height)[y * width + x]? =
      some (emitPixel sc cam width height x y) ∧
    ((traceRay sc (cam.getRayForPixel x y width height) 0).r = 1.4 →
      (emitPixel sc cam width height x y).1 = 255) ∧
    ((traceRay sc (cam.getRayForPixel x y width height) 0).r < 0 →
      (emitPixel sc cam width height x y).1 = 0) ∧
    ((traceRay sc (cam.getRayForPixel x y width height) 0).g = 1.4 →
      (emitPixel sc cam width height x y).2.1 = 255) ∧
    ((traceRay sc (cam.getRayForPixel x y width height) 0).g < 0 →
      (emitPixel sc cam width height x y).2.1 = 0) ∧
    ((traceRay sc (cam.getRayForPixel x y width height) 0).b = 1.4 →
      (emitPixel sc cam width height x y).2.2 = 255) ∧
    ((traceRay sc (cam.getRayForPixel x y width height) 0).b < 0 →
      (emitPixel sc cam width height x y).2.2 = 0) := by
  refine ⟨?_, ?_, ?_, ?_, ?_, ?_, ?_⟩
  · rw [renderPPM]
    exact flatMap_rows_get width _ height x y hx hy
  · intro hr
    unfold emitPixel rgbcolor.clamp rgbcolor.smulRight
    dsimp only
    rw [hr]
    norm_num [COLORMAX, cppTruncToInt_255]
  · intro hr
    unfold emitPixel rgbcolor.clamp rgbcolor.smulRight
    dsimp only
    have hneg : (traceRay sc (cam.getRayForPixel x y width height) 0).r * COLORMAX < 0 := by
      rw [COLORMAX]
      exact mul_neg_of_neg_of_pos hr (by norm_num)
    rw [if_pos hneg]
    norm_num [COLORMAX, cppTruncToInt_zero]
  · intro hg
    unfold emitPixel rgbcolor.clamp rgbcolor.smulRight
    dsimp only
    rw [hg]
    norm_num [COLORMAX, cppTruncToInt_255]
  · intro hg
    unfold emitPixel rgbcolor.clamp rgbcolor.smulRight
    dsimp only
    have hneg : (traceRay sc (cam.getRayForPixel x y width height) 0).g * COLORMAX < 0 := by
      rw [COLORMAX]
      exact mul_neg_of_neg_of_pos hg (by norm_num)
    rw [if_pos hneg]
    norm_num [COLORMAX, cppTruncToInt_zero]
  · intro hb
    unfold emitPixel rgbcolor.clamp rgbcolor.smulRight
    dsimp only
    rw [hb]
    norm_num [COLORMAX, cppTruncToInt_255]
  · intro hb
    unfold emitPixel rgbcolor.clamp rgbcolor.smulRight
    dsimp only
    have hneg : (traceRay sc (cam.getRayForPixel x y width height) 0).b * COLORMAX < 0 := by
      rw [COLORMAX]
      exact mul_neg_of_neg_of_pos hb (by norm_num)
    rw [if_pos hneg]
    norm_num [COLORMAX, cppTruncToInt_zero]

/-- Witness for C7: a 1-by-1 render of the empty scene; the only pixel
sits at row-major index 0 * 1 + 0. -/
theorem renderPPM_order_and_clamp_witness :
    (renderPPM sceneEmpty camZero 1 1)[0 * 1 + 0]? =
      some (emitPixel sceneEmpty camZero 1 1 0 0) ∧
    ((traceRay sceneEmpty (camZero.getRayForPixel 0 0 1 1) 0).r = 1.4 →
      (emitPixel sceneEmpty camZero 1 1 0 0).1 = 255) ∧
    ((traceRay sceneEmpty (camZero.getRayForPixel 0 0 1 1) 0).r < 0 →
      (emitPixel sceneEmpty camZero 1 1 0 0).1 = 0) ∧
    ((traceRay sceneEmpty (camZero.getRayForPixel 0 0 1 1) 0).g = 1.4 →
      (emitPixel sceneEmpty camZero 1 1 0 0).2.1 = 255) ∧
    ((traceRay sceneEmpty (camZero.getRayForPixel 0 0 1 1) 0).g < 0 →
      (emitPixel sceneEmpty camZero 1 1 0 0).2.1 = 0) ∧
    ((traceRay sceneEmpty (camZero.getRayForPixel 0 0 1 1) 0).b = 1.4 →
      (emitPixel sceneEmpty camZero 1 1 0 0).2.2 = 255) ∧
    ((traceRay sceneEmpty (camZero.getRayForPixel 0 0 1 1) 0).b < 0 →
      (emitPixel sceneEmpty camZero 1 1 0 0).2.2 = 0) :=
  renderPPM_order_and_clamp sceneEmpty camZero 1 1 0 0 (by norm_num) (by norm_num)

end Raytracer
